import Mathlib

/-!
Shallow embedding of the certificate engine of the azura-ssl repository
(files src/cert.js and src/sign.js): distinguished-name parsing,
subject-alternative-name construction, the fixed extension-set constants,
private-key PEM encode/decode branching and certificate construction and
signing, together with theorems settling the specification's claims.
-/

namespace AzuraSSL

/-- A subject attribute as produced by parseAttrsFromString in
src/sign.js lines 99-102: the JS object with fields shortName and value.
The spec calls the first field "type". -/
structure Attr where
  shortName : String
  value : String
deriving DecidableEq, Repr

/-- JS String.prototype.split with a one-character separator, over the
character list: splits at every occurrence of the separator, keeping
empty pieces; splitting the empty list yields one empty piece, matching
JS where the empty string splits to a one-element array of the empty
string. -/
def splitCharAux (sep : Char) : List Char → List Char → List (List Char)
  | [], acc => [acc.reverse]
  | c :: cs, acc =>
    if c = sep then acc.reverse :: splitCharAux sep cs []
    else splitCharAux sep cs (c :: acc)

/-- JS s.split(sep) for a single-character separator sep. -/
def jsSplit (sep : Char) (s : String) : List String :=
  (splitCharAux sep s.data []).map String.mk

/-- Split a character list at the first occurrence of the equals sign,
returning the characters before it and the characters after it; none if
no equals sign occurs. -/
def splitFirstEq : List Char → Option (List Char × List Char)
  | [] => none
  | c :: cs =>
    if c = '=' then some ([], cs)
    else (splitFirstEq cs).map (fun p => (c :: p.1, p.2))

/-- JS line terminators: the characters the regex dot does not match
without the s flag. -/
def isLineTerm (c : Char) : Bool :=
  c = '\n' || c = '\r' || c = '\u2028' || c = '\u2029'

/-- The regex match of src/sign.js line 97, pair.match of the pattern
caret, a group of one or more non-equals characters, an equals sign, a
group of one or more dot characters, dollar: succeeds exactly when the
segment is type=value with a non-empty type before the first equals sign
and a non-empty value containing no line terminator, returning the two
groups. -/
def matchSegment (s : String) : Option (String × String) :=
  match splitFirstEq s.data with
  | none => none
  | some (t, v) =>
    if !t.isEmpty && !v.isEmpty && v.all (fun c => !isLineTerm c) then
      some (String.mk t, String.mk v)
    else none

/-- The forEach loop of parseAttrsFromString, src/sign.js lines 96-106:
each matching segment contributes an attribute, the first non-matching
segment raises the error naming it (modelled as Except.error carrying
the thrown message). -/
def parseSegs : List String → Except String (List Attr)
  | [] => .ok []
  | s :: rest =>
    match matchSegment s with
    | some (t, v) =>
      match parseSegs rest with
      | .ok attrs => .ok (⟨t, v⟩ :: attrs)
      | .error e => .error e
    | none => .error ("Subjects malformed: " ++ s)

/-- parseAttrsFromString, src/sign.js lines 91-109: split the DN string
on every slash, discard the first piece (pairs.shift), then process each
remaining segment. -/
def parseAttrsFromString (dnStr : String) : Except String (List Attr) :=
  parseSegs ((jsSplit '/' dnStr).tail)

/-- Whether an Except value is a success. -/
def exceptOk : Except String (List Attr) → Bool
  | .ok _ => true
  | .error _ => false

/-- Remove the first occurrence of the space character from a character
list: JS String.prototype.replace with the string pattern a single
space and the empty replacement replaces only the first occurrence. -/
def removeFirstSpaceL : List Char → List Char
  | [] => []
  | c :: cs => if c = ' ' then cs else c :: removeFirstSpaceL cs

/-- JS s.replace of one space by the empty string, on a String. -/
def removeFirstSpace (s : String) : String :=
  String.mk (removeFirstSpaceL s.data)

/-- An alternative name entry as pushed by getSAN, src/sign.js lines
215-226: the uri constructor stands for the JS object with type 6 and
the token in its value field, the ip constructor for the JS object with
type 7 and the token in its ip field. -/
inductive AltName where
  | uri (value : String)
  | ip (value : String)
deriving DecidableEq, Repr

/-- The X.509 GeneralName type number carried by an entry: 6 for a URI
entry, 7 for an IP entry, as in the source literals. -/
def AltName.generalNameType : AltName → Nat
  | .uri _ => 6
  | .ip _ => 7

/-- The token a SAN entry carries (the value field of a URI object, the
ip field of an IP object). -/
def AltName.payload : AltName → String
  | .uri v => v
  | .ip v => v

/-- The key-usage flags of a keyUsage extension object; a field the
source object does not set is false (node-forge treats absent flags as
unset). Field order: digitalSignature, nonRepudiation, keyEncipherment,
dataEncipherment, keyAgreement, keyCertSign, cRLSign, encipherOnly,
decipherOnly. -/
structure KeyUsageFlags where
  digitalSignature : Bool
  nonRepudiation : Bool
  keyEncipherment : Bool
  dataEncipherment : Bool
  keyAgreement : Bool
  keyCertSign : Bool
  cRLSign : Bool
  encipherOnly : Bool
  decipherOnly : Bool
deriving DecidableEq, Repr

/-- An X.509v3 extension descriptor as the source builds them: the
basicConstraints, keyUsage and extKeyUsage objects of the constant sets
in src/cert.js lines 25-60 and the subjectAltName object built by
getSAN in src/sign.js lines 228-231. -/
inductive Extension where
  | basicConstraints (critical : Bool) (cA : Bool)
  | keyUsage (critical : Bool) (flags : KeyUsageFlags)
  | extKeyUsage (critical : Bool) (serverAuth clientAuth : Bool)
  | subjectAltName (altNames : List AltName)
deriving DecidableEq, Repr

/-- CA_EXTENSION_SET, src/cert.js lines 25-44: basicConstraints
(critical, cA true) and keyUsage (critical) with digitalSignature,
keyCertSign and cRLSign set (lines 35, 40, 41); the commented-out flags
are unset. -/
def CA_EXTENSION_SET : List Extension :=
  [.basicConstraints true true,
   .keyUsage true ⟨true, false, false, false, false, true, true, false, false⟩]

/-- SERVER_EXTENSION_SET, src/cert.js lines 46-60: basicConstraints
(critical, cA false), keyUsage (critical) with digitalSignature and
keyEncipherment, extKeyUsage (critical) with serverAuth and
clientAuth. -/
def SERVER_EXTENSION_SET : List Extension :=
  [.basicConstraints true false,
   .keyUsage true ⟨true, false, true, false, false, false, false, false, false⟩,
   .extKeyUsage true true true]

/-- The answer-processing step of getSAN, src/sign.js lines 209-231:
each list string has its first space removed (JS replace with a string
pattern), is split on commas, and every URI token is pushed as a type 6
object followed by every IP token as a type 7 object; the result is the
single-element array holding the subjectAltName extension. The
interactive prompt around it is dropped; the two answer strings are the
inputs. -/
def getSAN (uris ips : String) : List Extension :=
  let uriNames := (jsSplit ',' (removeFirstSpace uris)).foldl
      (fun acc uri => acc ++ [AltName.uri uri]) []
  let allNames := (jsSplit ',' (removeFirstSpace ips)).foldl
      (fun acc ip => acc ++ [AltName.ip ip]) uriNames
  [Extension.subjectAltName allNames]

/-- A private key, abstracted to an identifier: the PEM codec claims
only concern which key a blob carries and under which passphrase, not
RSA arithmetic. -/
abbrev PrivKey := Nat

/-- The passphrase argument of writePrivateKey and readPrivateKey: a JS
string, or any non-string value (undefined, absent, null), which is all
lodash isString distinguishes. -/
inductive Passphrase where
  | str (s : String)
  | absent
deriving DecidableEq, Repr

/-- lodash isString on the passphrase argument. -/
def Passphrase.isStr : Passphrase → Bool
  | .str _ => true
  | .absent => false

/-- A PEM private-key blob: either a plain unencrypted key PEM
(pki.privateKeyToPem) or an OpenSSL legacy triple-DES encrypted PEM
with DEK-Info headers (pki.encryptRsaPrivateKey with the legacy 3des
options), recording the key it carries and the passphrase that
encrypted it. -/
inductive PemBlob where
  | plain (k : PrivKey)
  | encrypted (k : PrivKey) (pass : String)
deriving DecidableEq, Repr

/-- Whether a blob is the encrypted form. -/
def PemBlob.isEncrypted : PemBlob → Bool
  | .plain _ => false
  | .encrypted _ _ => true

/-- node-forge pki.encryptRsaPrivateKey with the legacy 3des options:
produces the encrypted blob under the given passphrase (including the
empty passphrase, which still yields an encrypted PEM). -/
def encryptRsaPrivateKey (k : PrivKey) (passphrase : String) : PemBlob :=
  .encrypted k passphrase

/-- node-forge pki.privateKeyToPem: the plain blob. -/
def privateKeyToPem (k : PrivKey) : PemBlob :=
  .plain k

/-- node-forge pki.decryptRsaPrivateKey: on an encrypted PEM returns
the key when the passphrase matches and null (none) otherwise; on an
unencrypted PEM it returns the key unchanged. -/
def decryptRsaPrivateKey : PemBlob → String → Option PrivKey
  | .plain k, _ => some k
  | .encrypted k p, pass => if p = pass then some k else none

/-- node-forge pki.privateKeyFromPem: parses a plain key PEM; throws
(none) on an encrypted PEM, whose body is not plain ASN.1. -/
def privateKeyFromPem : PemBlob → Option PrivKey
  | .plain k => some k
  | .encrypted _ _ => none

/-- The PEM production of writePrivateKey, src/cert.js lines 69-79,
with the file write dropped: if isString(passphrase) the key is
encrypted under it (even when it is the empty string), otherwise it is
written plain. -/
def writePrivateKey (privateKey : PrivKey) (passphrase : Passphrase) : PemBlob :=
  match passphrase with
  | .str s => encryptRsaPrivateKey privateKey s
  | .absent => privateKeyToPem privateKey

/-- The PEM consumption of readPrivateKey, src/cert.js lines 107-122,
with the file read dropped: when the passphrase is a string of positive
length the blob is decrypted (none models the thrown decryption
failure), otherwise it is parsed as a plain key PEM (none models the
parse throw on an encrypted blob). -/
def readPrivateKey (pem : PemBlob) (passphrase : Passphrase) : Option PrivKey :=
  match passphrase with
  | .str s =>
    if s.length > 0 then decryptRsaPrivateKey pem s
    else privateKeyFromPem pem
  | .absent => privateKeyFromPem pem

/-- A JS Date reduced to its calendar fields: year, zero-based month
(0 = January, 11 = December) and day of month, the fields getFullYear
and setFullYear read and write. Time-of-day fields play no part in the
validity-window claims and are omitted. -/
structure JSDate where
  year : Nat
  month : Nat
  day : Nat
deriving DecidableEq, Repr

/-- Gregorian leap-year rule used by JS Date. -/
def isLeapYear (y : Nat) : Bool :=
  y % 4 = 0 && (y % 100 ≠ 0 || y % 400 = 0)

/-- Days in a zero-based month of a given year. -/
def daysInMonth (m y : Nat) : Nat :=
  if m = 1 then (if isLeapYear y then 29 else 28)
  else if m = 3 || m = 5 || m = 8 || m = 10 then 30
  else 31

/-- Whether the calendar fields form a real date. -/
def ValidDate (d : JSDate) : Prop :=
  d.month ≤ 11 ∧ 1 ≤ d.day ∧ d.day ≤ daysInMonth d.month d.year

instance (d : JSDate) : Decidable (ValidDate d) := by
  unfold ValidDate; infer_instance

/-- JS Date.prototype.setFullYear: replaces the year keeping month and
day, then normalizes an overflowing day of month into the following
month (for a date that was valid before the year change one carry step
is all JS normalization can need: only February 29 can overflow, into
March 1). -/
def setFullYear (d : JSDate) (y : Nat) : JSDate :=
  if d.day ≤ daysInMonth d.month y then ⟨y, d.month, d.day⟩
  else if d.month = 11 then ⟨y + 1, 0, d.day - daysInMonth d.month y⟩
  else ⟨y, d.month + 1, d.day - daysInMonth d.month y⟩

/-- An RSA key pair as returned by rsa.generateKeyPair. Keys are
abstract identifiers. -/
structure KeyPair where
  privateKey : PrivKey
  publicKey : Nat
deriving DecidableEq, Repr

/-- The message digest a signature was produced with. node-forge
cert.sign(key) defaults to SHA-1 when no digest argument is given, as
the source comment on src/cert.js line 176 itself records ("Signs the
certificate using SHA-256 instead of SHA-1"); sha1 therefore stands for
the signature algorithm sha1WithRSAEncryption and sha256 for
sha256WithRSAEncryption. -/
inductive MessageDigest where
  | sha1
  | sha256
deriving DecidableEq, Repr

/-- A recorded signature: the digest used and the private key that
signed. -/
structure Sig where
  digest : MessageDigest
  signer : PrivKey
deriving DecidableEq, Repr

/-- The certificate validity window. -/
structure Validity where
  notBefore : JSDate
  notAfter : JSDate
deriving DecidableEq, Repr

/-- A node-forge certificate object as the source fills it: public key,
serial number, validity, subject attributes, optional issuer (unset
until a signing function runs) and optional signature. -/
structure Cert where
  publicKey : Nat
  serialNumber : String
  validity : Validity
  subject : List Attr
  issuer : Option (List Attr)
  extensions : List Extension
  signature : Option Sig
deriving DecidableEq, Repr

/-- node-forge cert.sign(key, digest): records the signature; the
digest defaults to SHA-1 when the argument is omitted. -/
def forgeSign (c : Cert) (key : PrivKey) (digest : Option MessageDigest) : Cert :=
  { c with signature := some ⟨digest.getD MessageDigest.sha1, key⟩ }

/-- createCertificate, src/cert.js lines 133-154, with the asynchronous
key generation and the clock made explicit inputs: now is the instant
both new Date() calls observe and kp the generated pair. The
certificate gets the public key, the serial, notBefore now, notAfter
now with its year replaced by year plus ttl (setFullYear), the subject
attributes and the extensions; issuer and signature stay unset. -/
def createCertificate (now : JSDate) (kp : KeyPair) (ttl : Nat)
    (attrs : List Attr) (exts : List Extension) (serial : String) :
    PrivKey × Cert :=
  (kp.privateKey,
   { publicKey := kp.publicKey
     serialNumber := serial
     validity := ⟨now, setFullYear now (now.year + ttl)⟩
     subject := attrs
     issuer := none
     extensions := exts
     signature := none })

/-- selfSign, src/cert.js lines 162-165: sets the issuer to the
certificate's own subject attributes, then signs with the private key
and no digest argument (node-forge default, SHA-1). -/
def selfSign (cert : Cert) (privateKey : PrivKey) : Cert :=
  forgeSign { cert with issuer := some cert.subject } privateKey none

/-- signCertificate, src/cert.js lines 174-180: sets the issuer to the
CA certificate's subject attributes, then signs with the CA key using
SHA-256. -/
def signCertificate (cert : Cert) (CAKey : PrivKey) (CACert : Cert) : Cert :=
  forgeSign { cert with issuer := some CACert.subject } CAKey
    (some MessageDigest.sha256)

/-- The altNames list of an extension descriptor (empty for the
descriptors that carry none). -/
def altNamesOf : Extension → List AltName
  | .subjectAltName l => l
  | _ => []

/-! Helper lemmas shared by the claim theorems. -/

theorem foldl_push {α β : Type} (f : α → β) (l : List α) (acc : List β) :
    l.foldl (fun a x => a ++ [f x]) acc = acc ++ l.map f := by
  induction l generalizing acc with
  | nil => simp
  | cons x xs ih => simp [List.foldl_cons, ih]

/-- getSAN unfolded: the URI tokens mapped to URI entries followed by
the IP tokens mapped to IP entries, inside one subjectAltName
descriptor. -/
theorem getSAN_eq (uris ips : String) :
    getSAN uris ips =
      [Extension.subjectAltName
        ((jsSplit ',' (removeFirstSpace uris)).map AltName.uri ++
         (jsSplit ',' (removeFirstSpace ips)).map AltName.ip)] := by
  simp [getSAN, foldl_push]

/-- Every character of a piece produced by the split comes from the
input list or from the accumulator. -/
theorem mem_of_mem_splitCharAux (sep : Char) (l : List Char) :
    ∀ acc piece, piece ∈ splitCharAux sep l acc →
      ∀ c ∈ piece, c ∈ l ∨ c ∈ acc := by
  induction l with
  | nil =>
    intro acc piece hp c hc
    simp [splitCharAux] at hp
    subst hp
    exact Or.inr (List.mem_reverse.1 hc)
  | cons x xs ih =>
    intro acc piece hp c hc
    simp only [splitCharAux] at hp
    by_cases hx : x = sep
    · rw [if_pos hx] at hp
      rcases List.mem_cons.1 hp with h | h
      · subst h
        exact Or.inr (List.mem_reverse.1 hc)
      · rcases ih [] piece h c hc with h' | h'
        · exact Or.inl (List.mem_cons_of_mem _ h')
        · simp at h'
    · rw [if_neg hx] at hp
      rcases ih (x :: acc) piece hp c hc with h' | h'
      · exact Or.inl (List.mem_cons_of_mem _ h')
      · rcases List.mem_cons.1 h' with h'' | h''
        · exact Or.inl (h'' ▸ List.mem_cons_self _ _)
        · exact Or.inr h''

/-- A list holding at most one space has no space left once the first
occurrence is removed. -/
theorem space_notMem_removeFirst (l : List Char) (h : l.count ' ' ≤ 1) :
    ' ' ∉ removeFirstSpaceL l := by
  induction l with
  | nil => simp [removeFirstSpaceL]
  | cons c cs ih =>
    simp only [removeFirstSpaceL]
    by_cases hc : c = ' '
    · rw [if_pos hc]
      have : cs.count ' ' = 0 := by
        rw [List.count_cons, if_pos (by simp [hc])] at h
        omega
      exact List.count_eq_zero.1 this
    · rw [if_neg hc]
      intro hm
      rcases List.mem_cons.1 hm with h' | h'
      · exact hc h'.symm
      · have hcs : cs.count ' ' ≤ 1 := by
          rw [List.count_cons, if_neg (by simp [hc])] at h
          omega
        exact ih hcs h'

/-- parseSegs fails exactly when some segment fails the regex match. -/
theorem parseSegs_error_iff (l : List String) :
    exceptOk (parseSegs l) = false ↔ ∃ s ∈ l, matchSegment s = none := by
  induction l with
  | nil => simp [parseSegs, exceptOk]
  | cons s rest ih =>
    simp only [parseSegs]
    cases hm : matchSegment s with
    | none => simp [exceptOk, hm]
    | some tv =>
      obtain ⟨t, v⟩ := tv
      cases hr : parseSegs rest with
      | ok attrs =>
        rw [hr] at ih
        simp only [hr, exceptOk]
        simp only [exceptOk] at ih
        constructor
        · intro h; cases h
        · rintro ⟨s', hs', hm'⟩
          rcases List.mem_cons.1 hs' with h' | h'
          · rw [h'] at hm'; rw [hm'] at hm; cases hm
          · exact absurd (ih.2 ⟨s', h', hm'⟩) (by simp)
      | error e =>
        rw [hr] at ih
        simp only [hr, exceptOk]
        simp only [exceptOk] at ih
        constructor
        · intro _
          obtain ⟨s', hs', hm'⟩ := ih.1 trivial
          exact ⟨s', List.mem_cons_of_mem _ hs', hm'⟩
        · intro _; trivial

/-- On success, matching each segment succeeds and returns, in order,
exactly the shortName and value fields of the parsed attributes. -/
theorem parseSegs_ok_mapM (l : List String) (attrs : List Attr)
    (h : parseSegs l = .ok attrs) :
    l.mapM matchSegment = some (attrs.map fun a => (a.shortName, a.value)) := by
  induction l generalizing attrs with
  | nil =>
    simp only [parseSegs] at h
    injection h with h'
    subst h'
    rfl
  | cons s rest ih =>
    simp only [parseSegs] at h
    cases hm : matchSegment s with
    | none => rw [hm] at h; cases h
    | some tv =>
      rw [hm] at h
      obtain ⟨t, v⟩ := tv
      cases hr : parseSegs rest with
      | error e => rw [hr] at h; cases h
      | ok attrs' =>
        rw [hr] at h
        injection h with h'
        subst h'
        rw [List.mapM_cons, hm, ih attrs' hr]
        rfl

/-- A parse failure names the first segment that failed the match. -/
theorem parseSegs_error_msg (l : List String) (e : String)
    (h : parseSegs l = .error e) :
    ∃ s ∈ l, matchSegment s = none ∧ e = "Subjects malformed: " ++ s := by
  induction l generalizing e with
  | nil => simp only [parseSegs] at h; cases h
  | cons s rest ih =>
    simp only [parseSegs] at h
    cases hm : matchSegment s with
    | none =>
      rw [hm] at h
      injection h with h'
      exact ⟨s, List.mem_cons_self _ _, hm, h'.symm⟩
    | some tv =>
      rw [hm] at h
      obtain ⟨t, v⟩ := tv
      cases hr : parseSegs rest with
      | ok attrs => rw [hr] at h; cases h
      | error e' =>
        rw [hr] at h
        injection h with h'
        obtain ⟨s', hs', hm', he'⟩ := ih e' hr
        exact ⟨s', List.mem_cons_of_mem _ hs', hm', h' ▸ he'⟩

/-- splitFirstEq splits at the first equals sign: the input is the
prefix, the sign, then the suffix, and the prefix holds no sign. -/
theorem splitFirstEq_eq (l : List Char) :
    ∀ t v, splitFirstEq l = some (t, v) → l = t ++ '=' :: v ∧ '=' ∉ t := by
  induction l with
  | nil => intro t v h; exact Option.noConfusion h
  | cons c cs ih =>
    intro t v h
    simp only [splitFirstEq] at h
    by_cases hc : c = '='
    · rw [if_pos hc] at h
      injection h with h'
      injection h' with h1 h2
      subst h1; subst h2; subst hc
      simp
    · rw [if_neg hc] at h
      cases hs : splitFirstEq cs with
      | none => rw [hs] at h; cases h
      | some p =>
        rw [hs] at h
        obtain ⟨t', v'⟩ := p
        injection h with h'
        injection h' with h1 h2
        subst h1; subst h2
        obtain ⟨he, hn⟩ := ih t' v' hs
        refine ⟨by rw [he]; rfl, ?_⟩
        intro hm
        rcases List.mem_cons.1 hm with h' | h'
        · exact hc h'.symm
        · exact hn h'

/-- A successful match splits the segment at its first equals sign. -/
theorem matchSegment_eq (s t v : String) (h : matchSegment s = some (t, v)) :
    s.data = t.data ++ '=' :: v.data ∧ '=' ∉ t.data := by
  unfold matchSegment at h
  split at h
  · exact Option.noConfusion h
  · next tl vl heq =>
    split at h
    · injection h with h'
      injection h' with h1 h2
      subst h1; subst h2
      exact splitFirstEq_eq s.data tl vl heq
    · exact Option.noConfusion h

/-- The length of a month other than February does not depend on the
year. -/
theorem daysInMonth_y_indep (m y y' : Nat) (h : m ≠ 1) :
    daysInMonth m y = daysInMonth m y' := by
  simp [daysInMonth, h]

/-- February's length, written through the leap-year test. -/
theorem daysInMonth_feb (y : Nat) :
    daysInMonth 1 y = if isLeapYear y then 29 else 28 := by
  simp [daysInMonth]

/-- JS setFullYear on a valid date: the year is replaced; month and day
survive except for February 29 moved to a non-leap year, which
normalizes to March 1. -/
theorem setFullYear_spec (d : JSDate) (y : Nat) (hv : ValidDate d) :
    (setFullYear d y).year = y ∧
    (¬(d.month = 1 ∧ d.day = 29 ∧ isLeapYear y = false) →
      (setFullYear d y).month = d.month ∧ (setFullYear d y).day = d.day) ∧
    ((d.month = 1 ∧ d.day = 29 ∧ isLeapYear y = false) →
      (setFullYear d y).month = 2 ∧ (setFullYear d y).day = 1) := by
  obtain ⟨hm, hd1, hd2⟩ := hv
  by_cases hle : d.day ≤ daysInMonth d.month y
  · refine ⟨by simp [setFullYear, hle], fun _ => by simp [setFullYear, hle], ?_⟩
    rintro ⟨h1, h29, hnl⟩
    rw [h1, h29, daysInMonth_feb, hnl] at hle
    simp at hle
  · have hm1 : d.month = 1 := by
      by_contra hne
      exact hle (le_trans hd2 (le_of_eq (daysInMonth_y_indep _ _ _ hne)))
    rw [hm1] at hd2 hle
    rw [daysInMonth_feb] at hd2 hle
    have h29 : d.day ≤ 29 := by
      cases hly : isLeapYear d.year <;> rw [hly] at hd2 <;> simp at hd2 <;> omega
    cases hl : isLeapYear y with
    | true =>
      rw [hl] at hle
      simp at hle
      omega
    | false =>
      rw [hl] at hle
      simp at hle
      have hd29 : d.day = 29 := by omega
      have hgoal : setFullYear d y = ⟨y, 2, 1⟩ := by
        simp only [setFullYear]
        rw [hm1, hd29, daysInMonth_feb, hl]
        norm_num
      exact ⟨by rw [hgoal], fun hno => absurd ⟨hm1, hd29, rfl⟩ hno,
        fun _ => by rw [hgoal]; exact ⟨rfl, rfl⟩⟩

/-- The CA extension set exactly as claim C9's words describe it:
basicConstraints (critical, cA true) and keyUsage (critical) with
exactly the flags keyCertSign and cRLSign. Built from the claim's
words, to be compared against CA_EXTENSION_SET from the source. -/
def claimedCAExtensionSet : List Extension :=
  [.basicConstraints true true,
   .keyUsage true ⟨false, false, false, false, false, true, true, false, false⟩]

/-- The Server extension set as claim C9's words describe it:
basicConstraints (critical, cA false), keyUsage (critical) with
digitalSignature and keyEncipherment, extKeyUsage (critical) with
serverAuth and clientAuth. -/
def claimedServerExtensionSet : List Extension :=
  [.basicConstraints true false,
   .keyUsage true ⟨true, false, true, false, false, false, false, false, false⟩,
   .extKeyUsage true true true]

/-- The CA extension set as the amended claim describes it: as claimed,
except that the keyUsage flags are digitalSignature, keyCertSign and
cRLSign. -/
def amendedCAExtensionSet : List Extension :=
  [.basicConstraints true true,
   .keyUsage true ⟨true, false, false, false, false, true, true, false, false⟩]

/-! The claim theorems. -/

/-- C1 (code_bug): the round trip decode(encode(k, p), p) = k fails for
the empty-string passphrase: writePrivateKey encrypts whenever the
passphrase is a string, including the empty one, while readPrivateKey
treats a zero-length passphrase as "no encryption" and parses the blob
as a plain key PEM, which throws on an encrypted blob. The round trip
does hold for a non-empty string passphrase and for an absent
passphrase. -/
theorem key_roundtrip_empty_passphrase_fails (k : PrivKey) :
    readPrivateKey (writePrivateKey k (.str "")) (.str "") = none ∧
    readPrivateKey (writePrivateKey k (.str "secret")) (.str "secret") = some k ∧
    readPrivateKey (writePrivateKey k .absent) .absent = some k :=
  ⟨rfl, rfl, rfl⟩

/-- C2 (code_bug): writePrivateKey produces the encrypted blob exactly
when lodash isString accepts the passphrase — so the empty string is
encrypted too, where the claim (and the repository's own passphrase
prompt, whose comment says leaving it blank means having none) expects
a plain unencrypted blob. -/
theorem encode_encrypts_iff_isString (k : PrivKey) (p : Passphrase) :
    (writePrivateKey k p).isEncrypted = p.isStr ∧
    writePrivateKey k (.str "") = .encrypted k "" :=
  ⟨by cases p <;> rfl, rfl⟩

/-- C3 (counterexample): on the input "/C=" every non-empty segment
after the discarded leading piece contains an equals sign, yet
parseAttrsFromString still raises the parse error — refuting the
claimed "error iff some non-empty segment contains no equals sign". -/
theorem dn_parse_claim_counterexample :
    (∀ s ∈ (jsSplit '/' "/C=").tail, s ≠ "" → '=' ∈ s.data) ∧
    exceptOk (parseAttrsFromString "/C=") = false := by decide

/-- C3 (amended): parseAttrsFromString fails iff some segment after the
discarded first piece fails the regex match (which demands a non-empty
type before the first equals sign and a non-empty, line-terminator-free
value after it); the error names the offending segment; and every
matching segment is split at its first equals sign into type and
value. -/
theorem dn_parse_error_characterization (dnStr : String) :
    (exceptOk (parseAttrsFromString dnStr) = false ↔
      ∃ s ∈ (jsSplit '/' dnStr).tail, matchSegment s = none) ∧
    (∀ e, parseAttrsFromString dnStr = .error e →
      ∃ s ∈ (jsSplit '/' dnStr).tail,
        matchSegment s = none ∧ e = "Subjects malformed: " ++ s) ∧
    (∀ s t v, matchSegment s = some (t, v) →
      s.data = t.data ++ '=' :: v.data ∧ '=' ∉ t.data) :=
  ⟨parseSegs_error_iff _, fun e he => parseSegs_error_msg _ e he,
   fun s t v h => matchSegment_eq s t v h⟩

/-- Witness for C3's amended theorem at the concrete inputs "/C=" and
the matching segment "C=US". -/
theorem dn_parse_error_characterization_witness :
    exceptOk (parseAttrsFromString "/C=") = false ∧
    (("C=US").data = ("C").data ++ '=' :: ("US").data ∧ '=' ∉ ("C").data) :=
  ⟨(dn_parse_error_characterization "/C=").1.mpr ⟨"C=", by decide, by decide⟩,
   (dn_parse_error_characterization "/C=").2.2 "C=US" "C" "US" (by decide)⟩

/-- C4 (confirmed): "/C=US/O=aaa" parses to exactly the attributes
(C, US) then (O, aaa) in that order; the empty string parses to the
empty sequence; and on any successful parse the segments match in
order, each contributing exactly its type and value, so input order and
duplicates are preserved. -/
theorem dn_parse_wellformed (dnStr : String) (attrs : List Attr) :
    parseAttrsFromString "/C=US/O=aaa" =
      .ok [⟨"C", "US"⟩, ⟨"O", "aaa"⟩] ∧
    parseAttrsFromString "" = .ok [] ∧
    (parseAttrsFromString dnStr = .ok attrs →
      ((jsSplit '/' dnStr).tail).mapM matchSegment =
        some (attrs.map fun a => (a.shortName, a.value))) :=
  ⟨rfl, rfl, fun h => parseSegs_ok_mapM _ _ h⟩

/-- Witness for C4's theorem at the concrete input "/C=US/O=aaa". -/
theorem dn_parse_wellformed_witness :
    ((jsSplit '/' "/C=US/O=aaa").tail).mapM matchSegment =
      some [("C", "US"), ("O", "aaa")] :=
  (dn_parse_wellformed "/C=US/O=aaa" [⟨"C", "US"⟩, ⟨"O", "aaa"⟩]).2.2 rfl

/-- C5 (confirmed): for every URI list string and IP list string,
getSAN returns the single-element sequence holding one subjectAltName
descriptor whose altNames are all URI tokens as URI entries
(GeneralName type 6) in input order followed by all IP tokens as IP
entries (GeneralName type 7) in input order; on "a.com,b.com" and
"127.0.0.1" this is exactly uri a.com, uri b.com, ip 127.0.0.1. -/
theorem san_builder_structure (uris ips : String) :
    getSAN uris ips =
      [Extension.subjectAltName
        ((jsSplit ',' (removeFirstSpace uris)).map AltName.uri ++
         (jsSplit ',' (removeFirstSpace ips)).map AltName.ip)] ∧
    (∀ s, (AltName.uri s).generalNameType = 6 ∧
      (AltName.ip s).generalNameType = 7) ∧
    getSAN "a.com,b.com" "127.0.0.1" =
      [Extension.subjectAltName
        [AltName.uri "a.com", AltName.uri "b.com", AltName.ip "127.0.0.1"]] :=
  ⟨getSAN_eq uris ips, fun _ => ⟨rfl, rfl⟩, rfl⟩

/-- C6 (counterexample): with the URI list "a.com, b.com, c.com" (two
spaces) getSAN emits the entry value " c.com" beginning with a space:
JS replace with a string pattern removes only the first space, so not
all whitespace is trimmed during the split. -/
theorem san_whitespace_counterexample :
    getSAN "a.com, b.com, c.com" "127.0.0.1" =
      [Extension.subjectAltName
        [AltName.uri "a.com", AltName.uri "b.com", AltName.uri " c.com",
         AltName.ip "127.0.0.1"]] ∧
    (AltName.uri " c.com").payload.data.head? = some ' ' := by decide

/-- C6 (amended): getSAN removes only the first space character of each
list string before splitting on commas; consequently entry values are
guaranteed space-free only when each input string holds at most one
space. -/
theorem san_first_space_only (uris ips : String)
    (hu : uris.data.count ' ' ≤ 1) (hi : ips.data.count ' ' ≤ 1) :
    ∀ ext ∈ getSAN uris ips, ∀ an ∈ altNamesOf ext, ' ' ∉ an.payload.data := by
  intro ext hext an han
  rw [getSAN_eq] at hext
  rcases List.mem_singleton.1 hext with rfl
  simp only [altNamesOf] at han
  rcases List.mem_append.1 han with h | h
  · obtain ⟨tok, htok, rfl⟩ := List.mem_map.1 h
    obtain ⟨piece, hp, rfl⟩ := List.mem_map.1 htok
    intro hsp
    rcases mem_of_mem_splitCharAux ',' (removeFirstSpace uris).data [] piece
        hp ' ' hsp with h' | h'
    · exact space_notMem_removeFirst uris.data hu h'
    · simp at h'
  · obtain ⟨tok, htok, rfl⟩ := List.mem_map.1 h
    obtain ⟨piece, hp, rfl⟩ := List.mem_map.1 htok
    intro hsp
    rcases mem_of_mem_splitCharAux ',' (removeFirstSpace ips).data [] piece
        hp ' ' hsp with h' | h'
    · exact space_notMem_removeFirst ips.data hi h'
    · simp at h'

/-- Witness for C6's amended theorem at the concrete inputs
"a.com, b.com" (one space) and "127.0.0.1" (no space). -/
theorem san_first_space_only_witness :
    ("a.com, b.com").data.count ' ' ≤ 1 ∧
    ("127.0.0.1").data.count ' ' ≤ 1 ∧
    ∀ ext ∈ getSAN "a.com, b.com" "127.0.0.1",
      ∀ an ∈ altNamesOf ext, ' ' ∉ an.payload.data :=
  ⟨by decide, by decide,
   san_first_space_only "a.com, b.com" "127.0.0.1" (by decide) (by decide)⟩

/-- C7 (confirmed): selfSign sets the issuer to the certificate's own
subject, signCertificate sets it to the CA certificate's subject, and
createCertificate (the only other constructor of certificates in the
engine) leaves the issuer unset. -/
theorem issuer_consistency (c : Cert) (k CAKey : PrivKey) (CACert : Cert)
    (now : JSDate) (kp : KeyPair) (ttl : Nat) (attrs : List Attr)
    (exts : List Extension) (serial : String) :
    (selfSign c k).issuer = some (selfSign c k).subject ∧
    (signCertificate c CAKey CACert).issuer = some CACert.subject ∧
    (createCertificate now kp ttl attrs exts serial).2.issuer = none :=
  ⟨rfl, rfl, rfl⟩

/-- C8 (counterexample): with the clock at February 29, 2024 and ttl 3,
createCertificate yields notAfter March 1, 2027: the year still
advances by exactly 3, but month and day do not equal notBefore's,
refuting the claim's unconditional month/day equality for ttl 3. -/
theorem validity_feb29_counterexample :
    (createCertificate ⟨2024, 1, 29⟩ ⟨0, 0⟩ 3 [] [] "02").2.validity.notBefore
      = ⟨2024, 1, 29⟩ ∧
    (createCertificate ⟨2024, 1, 29⟩ ⟨0, 0⟩ 3 [] [] "02").2.validity.notAfter
      = ⟨2027, 2, 1⟩ ∧
    ¬((createCertificate ⟨2024, 1, 29⟩ ⟨0, 0⟩ 3 [] [] "02").2.validity.notAfter.month
      = (createCertificate ⟨2024, 1, 29⟩ ⟨0, 0⟩ 3 [] [] "02").2.validity.notBefore.month) := by
  decide

/-- C8 (amended): createCertificate sets notBefore to the current time
and notAfter to the same date with the year advanced by exactly ttl
(JS setFullYear semantics): the year difference is always exactly ttl,
and month and day equal notBefore's unless notBefore is February 29 and
the target year is not a leap year, in which case notAfter normalizes
to March 1. -/
theorem createCertificate_validity (now : JSDate) (kp : KeyPair) (ttl : Nat)
    (attrs : List Attr) (exts : List Extension) (serial : String)
    (hv : ValidDate now) :
    (createCertificate now kp ttl attrs exts serial).2.validity.notBefore = now ∧
    (createCertificate now kp ttl attrs exts serial).2.validity.notAfter.year
      = now.year + ttl ∧
    (¬(now.month = 1 ∧ now.day = 29 ∧ isLeapYear (now.year + ttl) = false) →
      (createCertificate now kp ttl attrs exts serial).2.validity.notAfter.month
        = now.month ∧
      (createCertificate now kp ttl attrs exts serial).2.validity.notAfter.day
        = now.day) ∧
    ((now.month = 1 ∧ now.day = 29 ∧ isLeapYear (now.year + ttl) = false) →
      (createCertificate now kp ttl attrs exts serial).2.validity.notAfter.month
        = 2 ∧
      (createCertificate now kp ttl attrs exts serial).2.validity.notAfter.day
        = 1) := by
  have h := setFullYear_spec now (now.year + ttl) hv
  exact ⟨rfl, h.1, h.2.1, h.2.2⟩

/-- Witness for C8's amended theorem at the valid date May 15, 2025
with ttl 3. -/
theorem createCertificate_validity_witness :
    ValidDate ⟨2025, 4, 15⟩ ∧
    ((createCertificate ⟨2025, 4, 15⟩ ⟨0, 0⟩ 3 [] [] "02").2.validity.notBefore
        = ⟨2025, 4, 15⟩ ∧
     (createCertificate ⟨2025, 4, 15⟩ ⟨0, 0⟩ 3 [] [] "02").2.validity.notAfter.year
        = (JSDate.mk 2025 4 15).year + 3 ∧
     (¬((JSDate.mk 2025 4 15).month = 1 ∧ (JSDate.mk 2025 4 15).day = 29 ∧
          isLeapYear ((JSDate.mk 2025 4 15).year + 3) = false) →
       (createCertificate ⟨2025, 4, 15⟩ ⟨0, 0⟩ 3 [] [] "02").2.validity.notAfter.month
          = (JSDate.mk 2025 4 15).month ∧
       (createCertificate ⟨2025, 4, 15⟩ ⟨0, 0⟩ 3 [] [] "02").2.validity.notAfter.day
          = (JSDate.mk 2025 4 15).day) ∧
     (((JSDate.mk 2025 4 15).month = 1 ∧ (JSDate.mk 2025 4 15).day = 29 ∧
          isLeapYear ((JSDate.mk 2025 4 15).year + 3) = false) →
       (createCertificate ⟨2025, 4, 15⟩ ⟨0, 0⟩ 3 [] [] "02").2.validity.notAfter.month
          = 2 ∧
       (createCertificate ⟨2025, 4, 15⟩ ⟨0, 0⟩ 3 [] [] "02").2.validity.notAfter.day
          = 1)) :=
  ⟨by decide, createCertificate_validity ⟨2025, 4, 15⟩ ⟨0, 0⟩ 3 [] [] "02" (by decide)⟩

/-- C9 (counterexample): the source CA extension set differs from the
claimed one — its keyUsage carries digitalSignature in addition to
keyCertSign and cRLSign (src/cert.js line 35). -/
theorem extension_sets_counterexample :
    CA_EXTENSION_SET ≠ claimedCAExtensionSet ∧
    CA_EXTENSION_SET[1]? =
      some (.keyUsage true
        ⟨true, false, false, false, false, true, true, false, false⟩) := by
  decide

/-- C9 (amended): the CA extension set is exactly basicConstraints
(critical, cA true) plus keyUsage (critical) with exactly the flags
digitalSignature, keyCertSign and cRLSign; the Server extension set is
exactly as the claim stated it. -/
theorem extension_sets_amended :
    CA_EXTENSION_SET = amendedCAExtensionSet ∧
    SERVER_EXTENSION_SET = claimedServerExtensionSet :=
  ⟨rfl, rfl⟩

/-- C10 (confirmed): selfSign signs with node-forge's default digest,
SHA-1 — so the self-signed root CA certificate's signature algorithm is
sha1WithRSAEncryption — while signCertificate signs with SHA-256. -/
theorem signing_digest_asymmetry (c : Cert) (k CAKey : PrivKey) (CACert : Cert) :
    (selfSign c k).signature = some ⟨MessageDigest.sha1, k⟩ ∧
    (signCertificate c CAKey CACert).signature
      = some ⟨MessageDigest.sha256, CAKey⟩ :=
  ⟨rfl, rfl⟩

end AzuraSSL
